import Mathlib

set_option linter.unusedVariables false

/-!
Verification of the dotfiles manager in `src/main.py`.

The embedding models:
* external script execution as an environment `ScriptEnv : String → Bool`
  (`true` = the script exits with status 0);
* `subprocess.run(script, check=True)`, which returns a `CompletedProcess`
  on exit status 0 and raises `CalledProcessError` otherwise, as an
  `Except Unit PyVal` value (`Except.error` = a raised, uncaught exception);
* the filesystem seen by Discovery as a list of `DirEntry` (one immediate
  subdirectory of the dotfiles root together with the names of the files
  directly inside it); paths are modelled by directory names relative to
  the root;
* every process-invoking function additionally returns the list of scripts
  it invoked, in order, so that "script X was never run" is stateable.
-/

namespace DfSetup

/-- The value union `CalledProcessError | CompletedProcess | None` that the
Python type annotations use for results of `run` / `_install` / `setup`. -/
inductive PyVal where
  | completedProcess
  | calledProcessError
  | noneV
deriving DecidableEq

/-- Exit behaviour of the external scripts: `env s = true` iff running
script `s` exits with status 0. -/
def ScriptEnv := String → Bool

/-- Model of `subprocess.run(s, check=True)`: `CompletedProcess` on exit status 0,
otherwise it raises `CalledProcessError` (modelled as `Except.error ()`). -/
def runCheck (env : ScriptEnv) (s : String) : Except Unit PyVal :=
  if env s then Except.ok PyVal.completedProcess else Except.error ()

/-- The `Dot` class: one application's configuration bundle. -/
structure Dot where
  name : String
  path : String
  install_script : Option String
  setup_script : Option String
  to_install : Bool
deriving DecidableEq

instance : Inhabited Dot := ⟨⟨"", "", none, none, false⟩⟩

/-- Model of `Dot._install`: runs the install script if present (`run(..., check=True)`),
returns `None` otherwise.  Second component: scripts invoked. -/
def Dot.installProc (env : ScriptEnv) (d : Dot) : Except Unit PyVal × List String :=
  match d.install_script with
  | some s => (runCheck env s, [s])
  | none => (Except.ok PyVal.noneV, [])

/-- Model of `Dot.setup`: if `to_install` and an install script is present, run the
install first and return its result when it is `None` or a
`CalledProcessError` value; a raised `CalledProcessError` propagates (there
is no `try` in the Python method).  Then run the setup script if present,
else return `None`.  Second component: scripts invoked. -/
def Dot.setup (env : ScriptEnv) (d : Dot) : Except Unit PyVal × List String :=
  if d.to_install && d.install_script.isSome then
    match Dot.installProc env d with
    | (Except.error e, t) => (Except.error e, t)
    | (Except.ok install_result, t) =>
      if install_result = PyVal.noneV ∨ install_result = PyVal.calledProcessError then
        (Except.ok install_result, t)
      else
        match d.setup_script with
        | some s => (runCheck env s, t ++ [s])
        | none => (Except.ok PyVal.noneV, t)
  else
    match d.setup_script with
    | some s => (runCheck env s, [s])
    | none => (Except.ok PyVal.noneV, [])

/-- Loop of `setup_dots`, threading the `failed` and `succeeded` accumulators
and the invocation trace.  A raised exception inside `dot.setup()` propagates
out of the loop (no `try` in the Python function), discarding both lists. -/
def setup_dots_go (env : ScriptEnv) :
    List Dot → List Dot → List Dot → List String →
    Except Unit (List Dot × List Dot) × List String
  | [], failed, succeeded, trace => (Except.ok (failed, succeeded), trace)
  | dot :: rest, failed, succeeded, trace =>
    match Dot.setup env dot with
    | (Except.error e, t) => (Except.error e, trace ++ t)
    | (Except.ok result, t) =>
      if result = PyVal.calledProcessError then
        setup_dots_go env rest (failed ++ [dot]) succeeded (trace ++ t)
      else if result = PyVal.completedProcess then
        setup_dots_go env rest failed (succeeded ++ [dot]) (trace ++ t)
      else
        setup_dots_go env rest failed succeeded (trace ++ t)

/-- Model of `setup_dots`: classify each dot of `to_setup` by the result of
`dot.setup()` (`CalledProcessError` value → `failed`, `CompletedProcess` →
`succeeded`, `None` → neither). -/
def setup_dots (env : ScriptEnv) (to_setup : List Dot) :
    Except Unit (List Dot × List Dot) × List String :=
  setup_dots_go env to_setup [] [] []

/-- Model of `Dot.__get_script(name)`: files directly inside the dot directory whose
name is `name + ".ps1"` or `name + ".py"` on Windows, `name + ".sh"` or
`name + ".py"` elsewhere; the single match if there is exactly one, `None`
otherwise. -/
def getScript (isWindows : Bool) (files : List String) (name : String) : Option String :=
  if isWindows then
    let ms := files.filter (fun file => file == name ++ ".ps1" || file == name ++ ".py")
    if ms.length ≠ 1 then none else ms.head?
  else
    let ms := files.filter (fun file => file == name ++ ".sh" || file == name ++ ".py")
    if ms.length ≠ 1 then none else ms.head?

/-- Index of the last `'.'` in a character list, if any. -/
def lastDotIdx : List Char → Option Nat
  | [] => none
  | c :: rest =>
    match lastDotIdx rest with
    | some i => some (i + 1)
    | none => if c = '.' then some 0 else none

/-- Python's `PurePath.stem`: the final component without its suffix; the
suffix is the part from the last `'.'` when that dot is neither the first
nor the last character, otherwise the stem is the whole name. -/
def pyStem (s : String) : String :=
  match lastDotIdx s.data with
  | some i => if 0 < i ∧ i + 1 < s.data.length then ⟨s.data.take i⟩ else s
  | none => s

/-- One immediate subdirectory of the dotfiles root: its name and the names
of the files directly inside it. -/
structure DirEntry where
  name : String
  files : List String
deriving DecidableEq

/-- Lexicographic (code-point) comparison of character lists: how Python
compares the strings that make up `Path` components. -/
def strLeGo : List Char → List Char → Bool
  | [], _ => true
  | _ :: _, [] => false
  | a :: as, b :: bs => if a < b then true else if b < a then false else strLeGo as bs

/-- Lexicographic (code-point) comparison of strings. -/
def strLe (a b : String) : Bool := strLeGo a.data b.data

/-- Ordering of sibling `Path`s used by `sorted(dirs)`: since all the
directories share the same parent, `sorted` orders them by name. -/
def dirLe (a b : DirEntry) : Prop := strLe a.name b.name = true

instance : DecidableRel dirLe := fun a b => decEq (strLe a.name b.name) true

/-- Model of `Dot.__init__`: stores name and path and resolves both scripts from the
files directly inside the directory. -/
def Dot.init (isWindows : Bool) (name : String) (path : String) (files : List String) : Dot :=
  { name := name
    path := path
    install_script := getScript isWindows files "install"
    setup_script := getScript isWindows files "setup"
    to_install := false }

/-- The comprehension filter of `get_dots`: the subdirectory directly
contains at least one file whose stem is `"setup"`. -/
def hasSetupFile (dir : DirEntry) : Bool :=
  dir.files.any (fun file => pyStem file == "setup")

/-- Model of `get_dots`: qualifying immediate subdirectories, sorted by name, each
turned into a `Dot`. -/
def get_dots (isWindows : Bool) (root : List DirEntry) : List Dot :=
  let dirs := root.filter hasSetupFile
  (List.insertionSort dirLe dirs).map (fun dir => Dot.init isWindows dir.name dir.name dir.files)

/-- The `App` dataclass. -/
structure App where
  name : String
  to_install : Bool := false
deriving DecidableEq

/-- The `Config` dataclass (`operating_systems` modelled as a list; it is
never read by the logic under verification). -/
structure Config where
  name : String
  to_setup : List App
  operating_systems : List String
  desc : Option String := none

/-- Inner loop of `get_dots_from_config` for one `dot`: for each `app` with
`app.name == dot.name`, Python executes `dot.to_install = app.to_install`
(mutation of the one shared object, modelled by threading the updated
record; `dot.name` is never mutated) and appends the object to `to_setup`
(`n` counts the appends). -/
def inner_apps (apps : List App) (dot : Dot) (n : Nat) : Dot × Nat :=
  match apps with
  | [] => (dot, n)
  | app :: rest =>
    if app.name == dot.name then
      inner_apps rest { dot with to_install := app.to_install } (n + 1)
    else
      inner_apps rest dot n

/-- Model of `get_dots_from_config`: outer loop over `dots`, inner loop over
`config.to_setup`.  Python appends the same `Dot` object once per matching
`App` and mutates its `to_install` field in place; since `setup_dots` only
runs after this function returns, every appended reference observes the
final field value — modelled by replicating the final record. -/
def get_dots_from_config (config : Config) (dots : List Dot) : List Dot :=
  match dots with
  | [] => []
  | dot :: rest =>
    let dn := inner_apps config.to_setup dot 0
    List.replicate dn.2 dn.1 ++ get_dots_from_config config rest

/-- The apps of `apps` whose name equals `nm` (in order). -/
def matchingApps (apps : List App) (nm : String) : List App :=
  apps.filter (fun app => app.name == nm)

/-- The final value of the mutated `to_install` field after the inner loop:
the flag of the last app named `nm`, or `dflt` when none matches. -/
def lastFlag (apps : List App) (nm : String) (dflt : Bool) : Bool :=
  apps.foldl (fun b app => if app.name == nm then app.to_install else b) dflt

/-- The last app of `apps` whose name equals `nm`, if any. -/
def last_matching (apps : List App) (nm : String) : Option App :=
  match apps with
  | [] => none
  | app :: rest =>
    match last_matching rest nm with
    | some b => some b
    | none => if app.name == nm then some app else none

/-- The entries one `dot` contributes to the selector's output: one entry
per matching app, each observing the final `to_install` value. -/
def selContrib (config : Config) (dot : Dot) : List Dot :=
  List.replicate (matchingApps config.to_setup dot.name).length
    { dot with to_install := lastFlag config.to_setup dot.name dot.to_install }

/-- Model of `apply_config`: select, then set up. -/
def apply_config (env : ScriptEnv) (config : Config) (dots : List Dot) :
    Except Unit (List Dot × List Dot) × List String :=
  setup_dots env (get_dots_from_config config dots)

/-- Model of `postflight`: the lines printed after a run. -/
def postflight (failed succeeded : List Dot) : List String :=
  (if failed.length > 0 then
    "The following applications failed to install or setup:" :: failed.map Dot.name
   else []) ++
  (if succeeded.length > 0 then
    "The following applications succeeded setup:" :: succeeded.map Dot.name
   else [])

/-- The parts of the host system `get_dotfiles_dir` consults: the home
directory and strict path resolution (`none` = the path does not exist, so
`Path.resolve(strict=True)` raises `FileNotFoundError`). -/
structure Sys where
  home : String
  resolve : String → Option String

/-- Outcome of `get_dotfiles_dir` (and of `main` as a whole for the
argument-error path): either a returned path, a propagated
`FileNotFoundError`, or a `SystemExit` carrying the printed message and
the process exit status. -/
inductive CliOut where
  | ret (p : String)
  | raised
  | exited (msg : String) (code : Nat)
deriving DecidableEq

/-- Model of `get_dotfiles_dir(args)`: one positional argument at most.  With two or
more positional arguments (`len(args)` ≥ 3 counting `argv[0]`) it prints
`"Too many arguments!"` and calls `exit()`, i.e. raises `SystemExit(None)`
— the process terminates with exit status 0. -/
def get_dotfiles_dir (sys : Sys) (args : List String) : CliOut :=
  match args.length with
  | 1 =>
    match sys.resolve (sys.home ++ "/dotfiles") with
    | some r => CliOut.ret r
    | none => CliOut.raised
  | 2 =>
    match sys.resolve (args.getD 1 "") with
    | none => CliOut.raised
    | some p =>
      match sys.resolve p with
      | some r => CliOut.ret r
      | none => CliOut.raised
  | _ => CliOut.exited "Too many arguments!" 0

/-- The hard-coded `apps` list of `main`. -/
def mainApps : List App :=
  [ { name := "bash", to_install := false }
  , { name := "nvim", to_install := false }
  , { name := "starship", to_install := true }
  , { name := "tmux", to_install := false }
  , { name := "vim", to_install := false }
  , { name := "zsh", to_install := false } ]

/-- The hard-coded `config` of `main`. -/
def mainConfig : Config :=
  { name := "Linux CLI", to_setup := mainApps, operating_systems := ["Linux"] }

/-- Observable outcome of one `main` run: lines printed, exit status when
the run ended in `SystemExit`, scripts invoked, and whether an uncaught
exception propagated out of `main`. -/
structure MainOut where
  printed : List String
  exitCode : Option Nat
  invoked : List String
  raised : Bool
deriving DecidableEq

/-- Model of `main`: resolve the root, discover, select with the hard-coded config,
execute, report.  `root` stands for the contents of the resolved dotfiles
directory; `env` for the exit behaviour of the scripts. -/
def main_model (sys : Sys) (isWindows : Bool) (root : List DirEntry)
    (env : ScriptEnv) (args : List String) : MainOut :=
  match get_dotfiles_dir sys args with
  | CliOut.exited msg code =>
    { printed := [msg], exitCode := some code, invoked := [], raised := false }
  | CliOut.raised =>
    { printed := [], exitCode := none, invoked := [], raised := true }
  | CliOut.ret _ =>
    let dots := get_dots isWindows root
    match apply_config env mainConfig dots with
    | (Except.error _, t) =>
      { printed := [], exitCode := none, invoked := t, raised := true }
    | (Except.ok fs, t) =>
      { printed := postflight fs.1 fs.2, exitCode := none, invoked := t, raised := false }

/-! Concrete fixtures used by counterexamples and witnesses. -/

/-- A dot with only a setup script. -/
def bashDot : Dot := ⟨"bash", "bash", none, some "bash/setup.sh", false⟩

/-- A second dot with only a setup script. -/
def zshDot : Dot := ⟨"zsh", "zsh", none, some "zsh/setup.sh", false⟩

/-- A dot marked `to_install` with both scripts present. -/
def starshipDot : Dot := ⟨"starship", "starship", some "starship/install.sh", some "starship/setup.sh", true⟩

/-- Every script exits 0 except `bash/setup.sh`. -/
def envBashFails : ScriptEnv := fun s => !(s == "bash/setup.sh")

/-- Every script exits 0 except `starship/install.sh`. -/
def envInstallFails : ScriptEnv := fun s => !(s == "starship/install.sh")

/-- A host where every path resolves to itself. -/
def sys0 : Sys := { home := "/home/user", resolve := fun p => some p }

/-- A dot with neither script. -/
def vimDot : Dot := ⟨"vim", "vim", none, none, false⟩

/-- The directory tree of the sortedness example: `zsh`, `bash`, `nvim`,
listed in non-sorted order, each with a setup script. -/
def exampleRoot : List DirEntry :=
  [⟨"zsh", ["setup.sh"]⟩, ⟨"bash", ["setup.sh"]⟩, ⟨"nvim", ["setup.sh"]⟩]

/-! Theorems. -/

/-- Helper: `run(s, check=True)` either completes normally or raises. -/
theorem runCheck_cases (env : ScriptEnv) (s : String) :
    runCheck env s = Except.ok PyVal.completedProcess ∨ runCheck env s = Except.error () := by
  unfold runCheck
  split
  · exact Or.inl rfl
  · exact Or.inr rfl

/-- Helper: `Dot.setup` never returns a `CalledProcessError` value: the only
producer of that value would be `run(..., check=True)`, which raises it
instead of returning it. -/
theorem setup_fst_ne_calledProcessError (env : ScriptEnv) (d : Dot) :
    (Dot.setup env d).1 ≠ Except.ok PyVal.calledProcessError := by
  cases hti : d.to_install with
  | false =>
    cases hss : d.setup_script with
    | none => simp [Dot.setup, hti, hss]
    | some s => rcases runCheck_cases env s with h | h <;> simp [Dot.setup, hti, hss, h]
  | true =>
    cases his : d.install_script with
    | none =>
      cases hss : d.setup_script with
      | none => simp [Dot.setup, hti, his, hss]
      | some s => rcases runCheck_cases env s with h | h <;> simp [Dot.setup, hti, his, hss, h]
    | some si =>
      rcases runCheck_cases env si with h | h
      · cases hss : d.setup_script with
        | none => simp [Dot.setup, Dot.installProc, hti, his, hss, h]
        | some s =>
          rcases runCheck_cases env s with h2 | h2 <;>
            simp [Dot.setup, Dot.installProc, hti, his, hss, h, h2]
      · simp [Dot.setup, Dot.installProc, hti, his, h]

/-- Helper: for a dot with no setup script, `Dot.setup` either raises (a
failing install) or returns `None`. -/
theorem setup_fst_of_no_setup_script (env : ScriptEnv) (d : Dot)
    (hn : d.setup_script = none) :
    (Dot.setup env d).1 = Except.error () ∨ (Dot.setup env d).1 = Except.ok PyVal.noneV := by
  cases hti : d.to_install with
  | false => right; simp [Dot.setup, hti, hn]
  | true =>
    cases his : d.install_script with
    | none => right; simp [Dot.setup, hti, his, hn]
    | some si =>
      rcases runCheck_cases env si with h | h
      · right; simp [Dot.setup, Dot.installProc, hti, his, hn, h]
      · left; simp [Dot.setup, Dot.installProc, hti, his, h]

/-- Helper: when the executor loop completes normally, a dot appears in the
`failed` accumulator only if its own `setup` produced a `CalledProcessError`
value, and in `succeeded` only if it produced a `CompletedProcess`. -/
theorem setup_dots_go_ok_mem (env : ScriptEnv) (ds : List Dot) :
    ∀ (f s : List Dot) (t : List String) (f' s' : List Dot) (t' : List String),
      setup_dots_go env ds f s t = (Except.ok (f', s'), t') →
      ∀ d : Dot,
        (d ∈ f' → d ∈ f ∨ (Dot.setup env d).1 = Except.ok PyVal.calledProcessError) ∧
        (d ∈ s' → d ∈ s ∨ (Dot.setup env d).1 = Except.ok PyVal.completedProcess) := by
  induction ds with
  | nil =>
    intro f s t f' s' t' h d
    simp only [setup_dots_go, Prod.mk.injEq, Except.ok.injEq] at h
    obtain ⟨⟨hf, hs⟩, ht⟩ := h
    subst hf
    subst hs
    exact ⟨fun hd => Or.inl hd, fun hd => Or.inl hd⟩
  | cons dot rest ih =>
    intro f s t f' s' t' h d
    rcases hsd : Dot.setup env dot with ⟨res, tr⟩
    cases res with
    | error e => simp [setup_dots_go, hsd] at h
    | ok r =>
      cases r with
      | calledProcessError =>
        simp only [setup_dots_go, hsd] at h
        have hm := ih (f ++ [dot]) s (t ++ tr) f' s' t' (by simpa using h) d
        constructor
        · intro hdf
          rcases hm.1 hdf with h1 | h1
          · rcases List.mem_append.mp h1 with h2 | h2
            · exact Or.inl h2
            · have hd : d = dot := by simpa using h2
              subst hd
              right
              rw [hsd]
          · exact Or.inr h1
        · intro hds
          exact hm.2 hds
      | completedProcess =>
        simp only [setup_dots_go, hsd] at h
        have hm := ih f (s ++ [dot]) (t ++ tr) f' s' t' (by simpa using h) d
        constructor
        · intro hdf
          exact hm.1 hdf
        · intro hds
          rcases hm.2 hds with h1 | h1
          · rcases List.mem_append.mp h1 with h2 | h2
            · exact Or.inl h2
            · have hd : d = dot := by simpa using h2
              subst hd
              right
              rw [hsd]
          · exact Or.inr h1
      | noneV =>
        simp only [setup_dots_go, hsd] at h
        exact ih f s (t ++ tr) f' s' t' (by simpa using h) d

/-- C7: when the executor completes normally, a selected dot with no
resolvable setup script is classified neither as failed nor as succeeded. -/
theorem C7_no_setup_script_unclassified (env : ScriptEnv) (dots : List Dot)
    (failed succeeded : List Dot) (trace : List String) (d : Dot)
    (h : setup_dots env dots = (Except.ok (failed, succeeded), trace))
    (hd : d ∈ dots) (hn : d.setup_script = none) :
    d ∉ failed ∧ d ∉ succeeded := by
  have hm := setup_dots_go_ok_mem env dots [] [] [] failed succeeded trace h d
  constructor
  · intro hf
    rcases hm.1 hf with h1 | h1
    · simp at h1
    · exact setup_fst_ne_calledProcessError env d h1
  · intro hs
    rcases hm.2 hs with h1 | h1
    · simp at h1
    · rcases setup_fst_of_no_setup_script env d hn with h2 | h2 <;>
        rw [h1] at h2 <;> simp at h2

/-- Witness for C7: a dot with no scripts at all is omitted from both lists. -/
theorem C7_witness :
    (setup_dots (fun _ => true) [vimDot] = (Except.ok ([], []), []) ∧
     vimDot ∈ [vimDot] ∧ vimDot.setup_script = none) ∧
    (vimDot ∉ ([] : List Dot) ∧ vimDot ∉ ([] : List Dot)) :=
  ⟨⟨rfl, by decide, rfl⟩,
   C7_no_setup_script_unclassified (fun _ => true) [vimDot] [] [] [] vimDot rfl
     (by decide) rfl⟩

/-- Helper: with three or more entries in `argv`, `get_dotfiles_dir` prints
the error message and raises `SystemExit` with status 0. -/
theorem get_dotfiles_dir_too_many (sys : Sys) (args : List String)
    (h : 3 ≤ args.length) :
    get_dotfiles_dir sys args = CliOut.exited "Too many arguments!" 0 := by
  obtain ⟨k, hk⟩ : ∃ k, args.length = k + 3 := ⟨args.length - 3, by omega⟩
  unfold get_dotfiles_dir
  rw [hk]
  rfl

/-- C1: a script failure is NOT recovered inside the executor.  Running the
claim's scenario: with `bash`'s setup script exiting non-zero,
`setup_dots [bash, zsh]` propagates the raised `CalledProcessError`
(`Except.error`), `bash` is not recorded in any `failed` list, and `zsh`'s
script is never invoked; whereas `setup_dots [zsh]` alone completes with
`zsh` in `succeeded`.  This contradicts the claim (the code's
`isinstance(result, CalledProcessError)` branch is unreachable because
`run(..., check=True)` raises instead of returning the error). -/
theorem C1_script_failure_aborts_run :
    setup_dots envBashFails [bashDot, zshDot] = (Except.error (), ["bash/setup.sh"]) ∧
    setup_dots envBashFails [zshDot] = (Except.ok ([], [zshDot]), ["zsh/setup.sh"]) := by
  constructor <;> rfl

/-- C2: with `starship` marked `to_install` and its install script exiting
non-zero, the setup script is indeed never invoked (the trace holds only
the install script), but the dot is not placed in `failed`: the raised
`CalledProcessError` propagates and the run aborts with no result lists. -/
theorem C2_install_failure_aborts_without_classification :
    setup_dots envInstallFails [starshipDot] = (Except.error (), ["starship/install.sh"]) := by
  rfl

/-- C3 counterexample: with two positional arguments the program does print
the error message and terminate immediately, but `exit()` raises
`SystemExit(None)`, so the exit status is 0 — the success indication, not a
non-success one. -/
theorem C3_counterexample :
    get_dotfiles_dir sys0 ["df-setup", "a", "b"] = CliOut.exited "Too many arguments!" 0 ∧
    ∀ msg code, get_dotfiles_dir sys0 ["df-setup", "a", "b"] = CliOut.exited msg code →
      code = 0 := by
  refine ⟨rfl, ?_⟩
  intro msg code h
  have h' : CliOut.exited "Too many arguments!" 0 = CliOut.exited msg code := h
  injection h' with h1 h2
  exact h2.symm

/-- C3 (amended): for every invocation with two or more positional
arguments, the program prints the "Too many arguments!" message and
terminates immediately — with exit status 0 (success) — and no Discovery or
Executor side effect occurs: no script is invoked and nothing else is
printed. -/
theorem C3_too_many_args_exits_before_any_work (sys : Sys) (isWindows : Bool)
    (root : List DirEntry) (env : ScriptEnv) (args : List String)
    (h : 3 ≤ args.length) :
    main_model sys isWindows root env args =
      { printed := ["Too many arguments!"], exitCode := some 0, invoked := [], raised := false } := by
  simp only [main_model, get_dotfiles_dir_too_many sys args h]

/-- Witness for C3 (amended) at a concrete invocation. -/
theorem C3_too_many_args_witness :
    3 ≤ (["df-setup", "a", "b"] : List String).length ∧
    main_model sys0 false [] (fun _ => true) ["df-setup", "a", "b"] =
      { printed := ["Too many arguments!"], exitCode := some 0, invoked := [], raised := false } :=
  ⟨by decide,
   C3_too_many_args_exits_before_any_work sys0 false [] (fun _ => true)
     ["df-setup", "a", "b"] (by decide)⟩

/-- Helper: the unique-match selection `if length ≠ 1 then none else head?`
returns `some f` exactly when the candidate list is `[f]`. -/
theorem pick_unique_eq_some (l : List String) (f : String) :
    ((if l.length ≠ 1 then none else l.head?) = some f) ↔ l = [f] := by
  match l with
  | [] => simp
  | [a] => simp [List.head?]
  | a :: b :: t => simp [List.length]

/-- Helper: the unique-match selection returns `none` exactly when the
number of candidates differs from one. -/
theorem pick_unique_eq_none (l : List String) :
    ((if l.length ≠ 1 then none else l.head?) = none) ↔ l.length ≠ 1 := by
  match l with
  | [] => simp
  | [a] => simp
  | a :: b :: t => simp

/-- C4: script resolution returns the file exactly when precisely one file
directly inside the directory matches the platform name set (generic `.py`
plus `.ps1` on Windows, `.sh` elsewhere), and returns `None` — never an
error — whenever there are zero matches or more than one match. -/
theorem C4_script_resolution (isWindows : Bool) (files : List String) (name : String) :
    (∀ f, getScript isWindows files name = some f ↔
      files.filter (fun file =>
        file == name ++ (if isWindows then ".ps1" else ".sh") || file == name ++ ".py") = [f]) ∧
    (getScript isWindows files name = none ↔
      (files.filter (fun file =>
        file == name ++ (if isWindows then ".ps1" else ".sh") || file == name ++ ".py")).length ≠ 1) := by
  cases isWindows <;>
    exact ⟨fun f => pick_unique_eq_some _ f, pick_unique_eq_none _⟩

/-- Helper: the lexicographic comparison is total. -/
theorem strLeGo_total : ∀ as bs : List Char, strLeGo as bs = true ∨ strLeGo bs as = true := by
  intro as
  induction as with
  | nil => intro bs; left; rfl
  | cons a as ih =>
    intro bs
    cases bs with
    | nil => right; rfl
    | cons b bs =>
      rcases lt_trichotomy a b with h | h | h
      · left; simp [strLeGo, h]
      · subst h
        rcases ih bs with h2 | h2
        · left; simp [strLeGo, lt_irrefl a, h2]
        · right; simp [strLeGo, lt_irrefl a, h2]
      · right; simp [strLeGo, h]

/-- Helper: the lexicographic comparison is transitive. -/
theorem strLeGo_trans : ∀ as bs cs : List Char,
    strLeGo as bs = true → strLeGo bs cs = true → strLeGo as cs = true := by
  intro as
  induction as with
  | nil => intro bs cs h1 h2; rfl
  | cons a as ih =>
    intro bs cs h1 h2
    cases bs with
    | nil => simp [strLeGo] at h1
    | cons b bs =>
      cases cs with
      | nil => simp [strLeGo] at h2
      | cons c cs =>
        simp only [strLeGo] at h1 h2 ⊢
        by_cases hab : a < b
        · by_cases hbc : b < c
          · simp [lt_trans hab hbc]
          · by_cases hcb : c < b
            · simp [hbc, hcb] at h2
            · have hbceq : b = c := le_antisymm (le_of_not_lt hcb) (le_of_not_lt hbc)
              subst hbceq
              simp [hab]
        · by_cases hba : b < a
          · simp [hab, hba] at h1
          · have habeq : a = b := le_antisymm (le_of_not_lt hba) (le_of_not_lt hab)
            subst habeq
            simp only [lt_irrefl a, if_false] at h1
            by_cases hac : a < c
            · simp [hac]
            · by_cases hca : c < a
              · simp [hac, hca] at h2
              · have haceq : a = c := le_antisymm (le_of_not_lt hca) (le_of_not_lt hac)
                subst haceq
                simp only [lt_irrefl a, if_false] at h2 ⊢
                exact ih bs cs h1 h2

instance : IsTotal DirEntry dirLe :=
  ⟨fun a b => strLeGo_total a.name.data b.name.data⟩

instance : IsTrans DirEntry dirLe :=
  ⟨fun _ _ _ h1 h2 => strLeGo_trans _ _ _ h1 h2⟩

/-- C5: Discovery produces exactly one Dot per immediate subdirectory that
directly contains a file whose stem is "setup"; all other subdirectories
are excluded (the Dot names are a permutation of the qualifying directory
names, with multiplicity). -/
theorem C5_discovery_exactly_qualifying (isWindows : Bool) (root : List DirEntry) :
    ((get_dots isWindows root).map Dot.name).Perm
      ((root.filter (fun dir => dir.files.any (fun file => pyStem file == "setup"))).map
        DirEntry.name) := by
  show (((List.insertionSort dirLe (root.filter hasSetupFile)).map
      (fun dir => Dot.init isWindows dir.name dir.name dir.files)).map Dot.name).Perm _
  rw [List.map_map]
  have hperm := List.perm_insertionSort dirLe (root.filter hasSetupFile)
  have hmap := hperm.map
    (Dot.name ∘ fun dir : DirEntry => Dot.init isWindows dir.name dir.name dir.files)
  have hcomp :
      (Dot.name ∘ fun dir : DirEntry => Dot.init isWindows dir.name dir.name dir.files) =
        DirEntry.name := rfl
  rw [hcomp] at hmap
  exact hmap

/-- C8: the Dots produced by Discovery are sorted lexicographically
ascending (code-point order) by directory name; directories "zsh", "bash",
"nvim" come out in the order "bash", "nvim", "zsh". -/
theorem C8_discovery_sorted :
    (∀ (isWindows : Bool) (root : List DirEntry),
      List.Pairwise (fun a b : Dot => strLe a.name b.name = true) (get_dots isWindows root)) ∧
    (get_dots false exampleRoot).map Dot.name = ["bash", "nvim", "zsh"] := by
  constructor
  · intro isWindows root
    have hs := List.sorted_insertionSort dirLe (root.filter hasSetupFile)
    exact List.Pairwise.map _ (fun a b hab => hab) hs
  · rfl

/-- C9: Discovery run twice over unchanged directory contents yields Dot
sequences equal element-wise in name, path, and resolved-script presence. -/
theorem C9_discovery_round_trip (isWindows : Bool) (root1 root2 : List DirEntry)
    (h : root1 = root2) :
    List.Forall₂ (fun a b : Dot =>
        a.name = b.name ∧ a.path = b.path ∧
        a.install_script.isSome = b.install_script.isSome ∧
        a.setup_script.isSome = b.setup_script.isSome)
      (get_dots isWindows root1) (get_dots isWindows root2) := by
  subst h
  exact List.forall₂_same.mpr (fun d _ => ⟨rfl, rfl, rfl, rfl⟩)

/-- Witness for C9 on a concrete directory tree. -/
theorem C9_witness :
    exampleRoot = exampleRoot ∧
    List.Forall₂ (fun a b : Dot =>
        a.name = b.name ∧ a.path = b.path ∧
        a.install_script.isSome = b.install_script.isSome ∧
        a.setup_script.isSome = b.setup_script.isSome)
      (get_dots false exampleRoot) (get_dots false exampleRoot) :=
  ⟨rfl, C9_discovery_round_trip false exampleRoot exampleRoot rfl⟩

/-- Helper: the inner selector loop ends with the dot carrying the last
matching app's flag (or its previous flag) and counts one append per
matching app. -/
theorem inner_apps_eq (apps : List App) : ∀ (dot : Dot) (n : Nat),
    inner_apps apps dot n =
      ({ dot with to_install := lastFlag apps dot.name dot.to_install },
       n + (matchingApps apps dot.name).length) := by
  induction apps with
  | nil => intro dot n; simp [inner_apps, lastFlag, matchingApps]
  | cons app rest ih =>
    intro dot n
    cases h : (app.name == dot.name) with
    | true =>
      simp only [inner_apps, h, if_true]
      rw [ih]
      simp only [lastFlag, List.foldl_cons, matchingApps, List.filter_cons, h, if_true,
        List.length_cons, Prod.mk.injEq]
      exact ⟨by trivial, by omega⟩
    | false =>
      simp only [inner_apps, h, Bool.false_eq_true, if_false]
      rw [ih]
      simp only [lastFlag, List.foldl_cons, matchingApps, List.filter_cons, h,
        Bool.false_eq_true, if_false]

/-- Helper: the selector's output is, dot by dot in Discovery order, the
per-dot contribution `selContrib`. -/
theorem get_dots_from_config_eq (config : Config) : ∀ dots : List Dot,
    get_dots_from_config config dots = dots.flatMap (selContrib config) := by
  intro dots
  induction dots with
  | nil => rfl
  | cons dot rest ih =>
    simp only [get_dots_from_config, inner_apps_eq, List.flatMap_cons, ih, selContrib]
    simp

/-- Helper: with no matching app, the mutated flag keeps its value. -/
theorem lastFlag_of_no_match (nm : String) : ∀ (apps : List App) (x : Bool),
    (∀ b ∈ apps, (b.name == nm) = false) → lastFlag apps nm x = x := by
  intro apps
  induction apps with
  | nil => intro x h; rfl
  | cons app rest ih =>
    intro x h
    have h0 : (app.name == nm) = false := h app (List.mem_cons_self _ _)
    simp only [lastFlag, List.foldl_cons, h0, Bool.false_eq_true, if_false]
    exact ih x (fun b hb => h b (List.mem_cons_of_mem _ hb))

/-- Helper: the final flag equals the last matching app's flag, or the
default when no app matches. -/
theorem lastFlag_eq_last_matching (nm : String) : ∀ (apps : List App) (dflt : Bool),
    lastFlag apps nm dflt = (last_matching apps nm).elim dflt App.to_install := by
  intro apps
  induction apps with
  | nil => intro dflt; rfl
  | cons app rest ih =>
    intro dflt
    have hstep : lastFlag (app :: rest) nm dflt =
        lastFlag rest nm (if (app.name == nm) = true then app.to_install else dflt) := by
      simp only [lastFlag, List.foldl_cons]
    rw [hstep, ih]
    cases hl : last_matching rest nm with
    | some b => simp [last_matching, hl]
    | none =>
      cases h : (app.name == nm) with
      | true => simp [last_matching, hl, h]
      | false => simp [last_matching, hl, h]

/-- Helper: with pairwise-distinct app names, a dot name matches either no
app (then `find?` fails and the flag is untouched) or exactly one app
(then `find?` returns it and the final flag is its flag). -/
theorem matching_unique_of_nodup (nm : String) :
    ∀ apps : List App, (apps.map App.name).Nodup →
      (matchingApps apps nm = [] ∧ apps.find? (fun app => app.name == nm) = none ∧
        ∀ dflt, lastFlag apps nm dflt = dflt) ∨
      (∃ a, matchingApps apps nm = [a] ∧ apps.find? (fun app => app.name == nm) = some a ∧
        ∀ dflt, lastFlag apps nm dflt = a.to_install) := by
  intro apps
  induction apps with
  | nil => intro _; exact Or.inl ⟨rfl, rfl, fun _ => rfl⟩
  | cons app rest ih =>
    intro h
    rw [List.map_cons, List.nodup_cons] at h
    obtain ⟨hhead, hrest⟩ := h
    cases hmatch : (app.name == nm) with
    | false =>
      rcases ih hrest with ⟨h1, h2, h3⟩ | ⟨a, h1, h2, h3⟩
      · left
        refine ⟨?_, ?_, ?_⟩
        · simp only [matchingApps, List.filter_cons, hmatch, Bool.false_eq_true, if_false]
          exact h1
        · rw [List.find?_cons_of_neg _ (by simp [hmatch])]
          exact h2
        · intro dflt
          simp only [lastFlag, List.foldl_cons, hmatch, Bool.false_eq_true, if_false]
          exact h3 dflt
      · right
        refine ⟨a, ?_, ?_, ?_⟩
        · simp only [matchingApps, List.filter_cons, hmatch, Bool.false_eq_true, if_false]
          exact h1
        · rw [List.find?_cons_of_neg _ (by simp [hmatch])]
          exact h2
        · intro dflt
          simp only [lastFlag, List.foldl_cons, hmatch, Bool.false_eq_true, if_false]
          exact h3 dflt
    | true =>
      have hnm : app.name = nm := by simpa using hmatch
      have hrestnone : ∀ b ∈ rest, (b.name == nm) = false := by
        intro b hb
        cases hbn : (b.name == nm) with
        | false => rfl
        | true =>
          exfalso
          apply hhead
          have hb' : b.name = nm := by simpa using hbn
          rw [hnm, ← hb']
          exact List.mem_map_of_mem App.name hb
      right
      refine ⟨app, ?_, ?_, ?_⟩
      · have hnil : List.filter (fun app => app.name == nm) rest = [] :=
          List.filter_eq_nil_iff.mpr (fun b hb => by simp [hrestnone b hb])
        simp only [matchingApps, List.filter_cons, hmatch, if_true, hnil]
      · exact List.find?_cons_of_pos _ hmatch
      · intro dflt
        simp only [lastFlag, List.foldl_cons, hmatch, if_true]
        exact lastFlag_of_no_match nm rest app.to_install hrestnone

/-- Helper: with pairwise-distinct app names, a dot's contribution is the
`find?`-selected singleton (or nothing). -/
theorem selContrib_of_nodup (config : Config)
    (hnodup : (config.to_setup.map App.name).Nodup) (dot : Dot) :
    selContrib config dot =
      ((config.to_setup.find? (fun app => app.name == dot.name)).map
        (fun app => { dot with to_install := app.to_install })).toList := by
  rcases matching_unique_of_nodup dot.name config.to_setup hnodup with
    ⟨h1, h2, h3⟩ | ⟨a, h1, h2, h3⟩
  · simp [selContrib, h1, h2]
  · simp [selContrib, h1, h2, h3]

/-- C6: for a config whose app names are pairwise distinct, the selector
keeps exactly the discovered dots whose name equals some app name, sets
each kept dot's `to_install` from its matching app, and emits them in
Discovery order. -/
theorem C6_selector_filters_and_annotates (config : Config) (dots : List Dot)
    (hnodup : (config.to_setup.map App.name).Nodup) :
    get_dots_from_config config dots =
      dots.filterMap (fun dot =>
        (config.to_setup.find? (fun app => app.name == dot.name)).map
          (fun app => { dot with to_install := app.to_install })) := by
  rw [get_dots_from_config_eq]
  induction dots with
  | nil => rfl
  | cons dot rest ih =>
    rw [List.flatMap_cons, List.filterMap_cons, selContrib_of_nodup config hnodup dot, ih]
    cases config.to_setup.find? (fun app => app.name == dot.name) with
    | none => rfl
    | some app => rfl

/-- Witness for C6 on the spec's end-to-end scenario: config selects `bash`
(no install) and `starship` (install); `zsh` is dropped. -/
theorem C6_witness :
    (((Config.mk "t" [⟨"bash", false⟩, ⟨"starship", true⟩] [] none).to_setup.map
        App.name).Nodup) ∧
    get_dots_from_config (Config.mk "t" [⟨"bash", false⟩, ⟨"starship", true⟩] [] none)
        [bashDot, starshipDot, zshDot] =
      [bashDot, starshipDot] := by
  constructor
  · decide
  · rw [C6_selector_filters_and_annotates _ _ (by decide)]
    rfl

/-- Helper: dots whose name differs from `nm` contribute no entry named
`nm` to the selector's output. -/
theorem filter_flatMap_contrib_of_ne (config : Config) (nm : String) :
    ∀ dots : List Dot, (∀ d ∈ dots, d.name ≠ nm) →
      List.filter (fun d => d.name == nm) (dots.flatMap (selContrib config)) = [] := by
  intro dots
  induction dots with
  | nil => intro _; rfl
  | cons d0 rest ih =>
    intro h
    rw [List.flatMap_cons, List.filter_append,
      ih (fun d hd => h d (List.mem_cons_of_mem _ hd))]
    have h0 : d0.name ≠ nm := h d0 (List.mem_cons_self _ _)
    simp [selContrib, List.filter_replicate, h0]

/-- Helper: every entry a dot contributes bears the dot's own name, so the
name filter keeps the whole contribution. -/
theorem filter_contrib_self (config : Config) (dot : Dot) :
    List.filter (fun d => d.name == dot.name) (selContrib config dot) = selContrib config dot := by
  simp [selContrib, List.filter_replicate]

/-- C10: when the config's app list names the same dot several times, the
selector emits one output entry per matching app (the same object appended
repeatedly), and every one of those entries carries the `to_install` flag
of the LAST matching app — not each app's own flag — because all the
appends alias the one mutated field. -/
theorem C10_duplicate_apps_share_last_flag (config : Config) (dots : List Dot) (dot : Dot)
    (lastApp : App) (hmem : dot ∈ dots) (hnodup : (dots.map Dot.name).Nodup)
    (hdup : 2 ≤ (matchingApps config.to_setup dot.name).length)
    (hlast : last_matching config.to_setup dot.name = some lastApp) :
    ((get_dots_from_config config dots).filter (fun d => d.name == dot.name)).length =
      (matchingApps config.to_setup dot.name).length ∧
    ∀ d ∈ get_dots_from_config config dots, d.name = dot.name →
      d.to_install = lastApp.to_install := by
  rw [get_dots_from_config_eq]
  constructor
  · obtain ⟨l1, l2, hsplit⟩ := List.append_of_mem hmem
    subst hsplit
    rw [List.map_append, List.map_cons] at hnodup
    obtain ⟨hn1, hn2, hdisj⟩ := List.nodup_append.mp hnodup
    have h1 : ∀ d ∈ l1, d.name ≠ dot.name := by
      intro d hd hcontra
      exact hdisj (List.mem_map_of_mem Dot.name hd) (by rw [hcontra]; exact List.mem_cons_self _ _)
    have h2 : ∀ d ∈ l2, d.name ≠ dot.name := by
      intro d hd hcontra
      exact (List.nodup_cons.mp hn2).1 (by rw [← hcontra]; exact List.mem_map_of_mem Dot.name hd)
    rw [List.flatMap_append, List.flatMap_cons, List.filter_append, List.filter_append,
      filter_flatMap_contrib_of_ne config dot.name l1 h1,
      filter_flatMap_contrib_of_ne config dot.name l2 h2,
      filter_contrib_self]
    simp [selContrib]
  · intro d hd hdname
    obtain ⟨dot', hdot', hmemc⟩ := List.mem_flatMap.mp hd
    have hmemc' : d ∈ List.replicate (matchingApps config.to_setup dot'.name).length
        { dot' with to_install := lastFlag config.to_setup dot'.name dot'.to_install } := hmemc
    have hdval :
        d = { dot' with to_install := lastFlag config.to_setup dot'.name dot'.to_install } :=
      (List.mem_replicate.mp hmemc').2
    have hname' : dot'.name = dot.name := by rw [← hdname, hdval]
    rw [hdval]
    show lastFlag config.to_setup dot'.name dot'.to_install = lastApp.to_install
    rw [hname', lastFlag_eq_last_matching dot.name config.to_setup dot'.to_install, hlast]
    rfl

/-- Witness for C10: config lists "vim" twice (install=true then
install=false); the one discovered "vim" dot appears twice in the output
and both entries carry the last flag (false). -/
theorem C10_witness :
    (vimDot ∈ [vimDot] ∧ (([vimDot] : List Dot).map Dot.name).Nodup ∧
     2 ≤ (matchingApps [⟨"vim", true⟩, ⟨"vim", false⟩] vimDot.name).length ∧
     last_matching [⟨"vim", true⟩, ⟨"vim", false⟩] vimDot.name = some ⟨"vim", false⟩) ∧
    (((get_dots_from_config (Config.mk "t" [⟨"vim", true⟩, ⟨"vim", false⟩] [] none)
          [vimDot]).filter (fun d => d.name == vimDot.name)).length =
        (matchingApps [⟨"vim", true⟩, ⟨"vim", false⟩] vimDot.name).length ∧
     ∀ d ∈ get_dots_from_config (Config.mk "t" [⟨"vim", true⟩, ⟨"vim", false⟩] [] none)
          [vimDot],
       d.name = vimDot.name → d.to_install = (⟨"vim", false⟩ : App).to_install) :=
  ⟨⟨by decide, by decide, by decide, by decide⟩,
   C10_duplicate_apps_share_last_flag
     (Config.mk "t" [⟨"vim", true⟩, ⟨"vim", false⟩] [] none) [vimDot] vimDot
     ⟨"vim", false⟩ (by decide) (by decide) (by decide) (by decide)⟩

end DfSetup
